import Mathlib

/-!
Verification of the Voltrix client core: the biometric re-lock state machine
(src/lib/useBiometricAuth.ts), the realtime signal dedup / enrichment pipeline
(src/app/(tabs)/signals.tsx), the notification fan-out (src/lib/notifications.ts)
and the store helpers (src/lib/supabase.ts).  Each definition is a shallow
embedding of the corresponding TypeScript function; asynchronous platform
capabilities (biometric check, text generation, the row store) are passed in
as explicit parameters or oracles.
-/

namespace Voltrix

/-- App lifecycle states as delivered by React Native AppState. -/
inductive AppStatus where
  | active
  | inactive
  | background
deriving DecidableEq, Repr

/-- State of the useBiometricAuth hook: the React state variables
(isAuthenticated, isAuthenticating, isSupported, error) together with the refs
(appStateRef, hasAuthenticatedOnce, wasInTrueBackground, backgroundTimestampRef,
isAuthenticatingRef is folded into isAuthenticating since the code keeps them in
sync).  scheduledChallenges records the delays (ms) of every setTimeout that
schedules an authenticate call, so that "a challenge is scheduled" is
observable. -/
structure BioState where
  appState : AppStatus
  wasInTrueBackground : Bool
  backgroundTimestamp : Option Nat
  hasAuthenticatedOnce : Bool
  isAuthenticating : Bool
  isAuthenticated : Bool
  isSupported : Bool
  error : Option String
  scheduledChallenges : List Nat
deriving DecidableEq, Repr

/-- Minimum time (ms) the app must be in background before a re-lock fires
(src/lib/useBiometricAuth.ts line 30). -/
def MIN_BACKGROUND_MS : Nat := 3000

/-- Delay (ms) before the scheduled challenge after a re-lock
(src/lib/useBiometricAuth.ts line 156). -/
def CHALLENGE_DELAY_MS : Nat := 500

/-- The AppState change listener of useBiometricAuth
(src/lib/useBiometricAuth.ts lines 122-170).  The listener is only registered
when isSupported holds; `now` is the value Date.now() returns during this
invocation.  Elapsed time uses truncated Nat subtraction, matching the
non-negative difference of wall-clock timestamps. -/
def handleAppStateChange (now : Nat) (st : BioState) (nextState : AppStatus) : BioState :=
  if st.isSupported = false then st
  else
    let prevState := st.appState
    let st1 := { st with appState := nextState }
    -- Mark that the app truly backgrounded.
    let st2 :=
      if nextState = AppStatus.background then
        { st1 with wasInTrueBackground := true, backgroundTimestamp := some now }
      else st1
    -- App returned to foreground from genuine background.
    let st3 :=
      if nextState = AppStatus.active ∧ st2.wasInTrueBackground = true ∧
          st2.hasAuthenticatedOnce = true ∧ st2.isAuthenticating = false then
        -- The source reads: backgroundTimestampRef.current ? now - ts : MIN_BACKGROUND_MS,
        -- a JavaScript truthiness test, so a stored timestamp of 0 also falls
        -- back to MIN_BACKGROUND_MS.
        let elapsed :=
          match st2.backgroundTimestamp with
          | some t => if t = 0 then MIN_BACKGROUND_MS else now - t
          | none => MIN_BACKGROUND_MS
        let st2c := { st2 with wasInTrueBackground := false, backgroundTimestamp := none }
        if MIN_BACKGROUND_MS ≤ elapsed then
          { st2c with isAuthenticated := false, error := none,
                      scheduledChallenges := st2c.scheduledChallenges ++ [CHALLENGE_DELAY_MS] }
        else st2c
      else st2
    -- inactive to active without ever hitting background: clear the flag, do not re-lock.
    if prevState = AppStatus.inactive ∧ nextState = AppStatus.active then
      { st3 with wasInTrueBackground := false, backgroundTimestamp := none }
    else st3

/-- Fold of the AppState listener over a sequence of (timestamp, next-state)
lifecycle events. -/
def handleAppStateSeq (st : BioState) (evts : List (Nat × AppStatus)) : BioState :=
  evts.foldl (fun s e => handleAppStateChange e.1 s e.2) st

/-- Error codes the biometric capability can report
(expo-local-authentication result.error as switched on in the source). -/
inductive AuthErrorCode where
  | user_cancel
  | lockout
  | user_fallback
  | other
deriving DecidableEq, Repr

/-- Outcome of one invocation of the platform biometric check: success, a
failure with an error code, or a thrown exception. -/
inductive AuthOutcome where
  | success
  | failure (code : AuthErrorCode)
  | thrown
deriving DecidableEq, Repr

/-- The authenticate callback (src/lib/useBiometricAuth.ts lines 59-101),
applied to the outcome the biometric capability returns.  The in-flight guard
returns the state unchanged; otherwise the error is cleared, the outcome is
dispatched, and the finally block resets the in-flight flag. -/
def authenticate (st : BioState) (outcome : AuthOutcome) : BioState :=
  if st.isSupported = false ∨ st.isAuthenticating = true then st
  else
    let st0 := { st with isAuthenticating := true, error := none }
    let st1 :=
      match outcome with
      | AuthOutcome.success =>
          { st0 with hasAuthenticatedOnce := true, isAuthenticated := true, error := none }
      | AuthOutcome.failure AuthErrorCode.user_cancel =>
          { st0 with error := some "Authentication cancelled" }
      | AuthOutcome.failure AuthErrorCode.lockout =>
          { st0 with error := some "Too many attempts. Try again later." }
      | AuthOutcome.failure AuthErrorCode.user_fallback =>
          { st0 with hasAuthenticatedOnce := true, isAuthenticated := true }
      | AuthOutcome.failure AuthErrorCode.other =>
          { st0 with error := some "Authentication failed. Try again." }
      | AuthOutcome.thrown =>
          { st0 with error := some "Authentication failed. Try again." }
    { st1 with isAuthenticating := false }

/-- Trade direction of a signal (BUY or SELL). -/
inductive TradeType where
  | BUY
  | SELL
deriving DecidableEq, Repr

/-- Lifecycle status of a signal, as constrained by the signals table CHECK. -/
inductive SignalStatus where
  | active
  | pending
  | hit_tp
  | hit_sl
deriving DecidableEq, Repr

/-- A trading signal as held in the local view of the signals screen
(the Signal shape produced by dbToSignal in src/app/(tabs)/signals.tsx).
Prices are DECIMAL(12,5) in the store; they are modelled as integers since no
verified property depends on the fractional part.  aiInsight is the optional
enrichment text; dbToSignal maps an empty stored string to absence. -/
structure Signal where
  id : String
  symbol : String
  type : TradeType
  entry : Int
  sl : Int
  tp : Int
  timestamp : String
  status : SignalStatus
  confidence : Nat
  aiInsight : Option String
  technicalReason : Option String
deriving DecidableEq, Repr

/-- State owned by the signals screen that the realtime INSERT handler touches:
the local view (signals), the dedup seen-index (seenIdsRef), the unseen-new
counter (newSignalCount), and the log of ids for which an enrichment call
(generateInsightForSignal) was issued. -/
structure StreamState where
  signals : List Signal
  seenIds : Finset String
  newSignalCount : Nat
  enrichCalls : List String
deriving DecidableEq

/-- The subscription state before any delivery: empty view, empty seen-index. -/
def initStreamState : StreamState :=
  { signals := [], seenIds := ∅, newSignalCount := 0, enrichCalls := [] }

/-- The INSERT branch of subscribeToSignals (src/app/(tabs)/signals.tsx lines
247-270).  `gen` is the text-generation capability (generateInsightForSignal),
returning the empty string on failure.  A payload whose id is already in the
seen-index is discarded; otherwise the id joins the seen-index, the counter is
bumped, the signal is prepended, one enrichment call is issued, and on a
non-empty insight the local view attaches it to the matching signal. -/
def processInsert (gen : Signal → String) (st : StreamState) (newSignal : Signal) :
    StreamState :=
  if newSignal.id ∈ st.seenIds then st
  else
    let st1 : StreamState :=
      { st with seenIds := insert newSignal.id st.seenIds,
                newSignalCount := st.newSignalCount + 1,
                signals := newSignal :: st.signals }
    let insight := gen newSignal
    let st2 : StreamState :=
      if insight ≠ "" then
        { st1 with signals := st1.signals.map (fun s =>
            if s.id = newSignal.id then { s with aiInsight := some insight } else s) }
      else st1
    { st2 with enrichCalls := st2.enrichCalls ++ [newSignal.id] }

/-- Fold of the INSERT handler over a sequence of delivered payloads. -/
def processInserts (gen : Signal → String) (st : StreamState) (deliveries : List Signal) :
    StreamState :=
  deliveries.foldl (processInsert gen) st

/-- JavaScript truthiness test used by the filter in generateAIInsights: the
guard reads as not s.aiInsight, which holds when the field is absent or the
empty string. -/
def lacksInsight (s : Signal) : Bool :=
  match s.aiInsight with
  | none => true
  | some t => t == ""

/-- FindIndex-then-set used by generateAIInsights: attach `insight` to the
first signal whose id matches `i`; when no index matches, leave the list
unchanged. -/
def updateFirst (sigs : List Signal) (i insight : String) : List Signal :=
  match sigs with
  | [] => []
  | s :: rest =>
      if s.id = i then { s with aiInsight := some insight } :: rest
      else s :: updateFirst rest i insight

/-- Body of the for-loop of generateAIInsights: for each signal needing an
insight, issue one generation call; on a non-empty result attach it to the
accumulated view (the store write-back is fire-and-forget and does not affect
the local view).  Returns the final view together with the ids for which a
generation call was issued, in order. -/
def enrichLoop (gen : Signal → String) :
    List Signal → List Signal → List Signal × List String
  | [], acc => (acc, [])
  | s :: rest, acc =>
      let insight := gen s
      let acc1 := if insight ≠ "" then updateFirst acc s.id insight else acc
      let r := enrichLoop gen rest acc1
      (r.1, s.id :: r.2)

/-- The enrichment pass generateAIInsights (src/app/(tabs)/signals.tsx lines
136-170): filter the signals lacking insight; if none, return the list
untouched with no calls; otherwise run the generation loop over the needing
signals against a copy of the list. -/
def generateAIInsights (gen : Signal → String) (signalList : List Signal) :
    List Signal × List String :=
  let signalsNeedingInsights := signalList.filter lacksInsight
  if signalsNeedingInsights.isEmpty then (signalList, [])
  else enrichLoop gen signalsNeedingInsights signalList

/-- Lookup of the entry of a local view holding a given id (first match). -/
def findById : List Signal → String → Option Signal
  | [], _ => none
  | s :: rest, i => if s.id = i then some s else findById rest i

/-- A row of the user_signals table (paper-trade follows), unique on
(user_id, signal_id) per migration 002. -/
structure UserSignalRow where
  user_id : String
  signal_id : String
  entry_price : Int
deriving DecidableEq, Repr

/-- Key predicate of the user_signals unique constraint. -/
def sameKey (u s : String) (r : UserSignalRow) : Bool :=
  r.user_id == u && r.signal_id == s

/-- followSignal (src/lib/supabase.ts lines 261-269): an upsert on
user_signals with conflict target (user_id, signal_id).  The row store applies
PostgreSQL ON CONFLICT semantics against the UNIQUE(user_id, signal_id)
constraint of migration 002: an existing row with the key is updated in place,
otherwise the row is appended. -/
def followSignal (db : List UserSignalRow) (userId signalId : String) (entryPrice : Int) :
    List UserSignalRow :=
  if db.any (sameKey userId signalId) then
    db.map (fun r => if sameKey userId signalId r then { r with entry_price := entryPrice } else r)
  else db ++ [{ user_id := userId, signal_id := signalId, entry_price := entryPrice }]

/-- A row of the profiles table (migration 003), restricted to the fields the
verified helpers touch. -/
structure Profile where
  id : String
  email : String
  is_approved : Bool
deriving DecidableEq, Repr

/-- Master admin identity (ADMIN_EMAIL in src/lib/useApproval.ts, also checked
literally inside setUserApproval). -/
def ADMIN_EMAIL : String := "ukbayar@gmail.com"

/-- Errors setUserApproval can throw: the explicit unauthorized rejection, or
a transport error surfaced from the store write. -/
inductive ApprovalError where
  | unauthorized
  | transport (msg : String)
deriving DecidableEq, Repr

/-- setUserApproval (src/lib/supabase.ts lines 303-315): the active session
email is checked against the master admin before any write; on mismatch the
unauthorized error is thrown and the store is untouched.  `writeError` is the
error the store update returns, if any (a transport failure); on a transport
failure the error is rethrown.  Returns the outcome together with the
resulting profiles store. -/
def setUserApproval (sessionEmail : Option String) (writeError : Option String)
    (profiles : List Profile) (userId : String) (approved : Bool) :
    Except ApprovalError Unit × List Profile :=
  if sessionEmail ≠ some ADMIN_EMAIL then
    (Except.error ApprovalError.unauthorized, profiles)
  else
    match writeError with
    | some e => (Except.error (ApprovalError.transport e), profiles)
    | none =>
        (Except.ok (),
         profiles.map (fun p => if p.id = userId then { p with is_approved := approved } else p))

/-- upsertProfile (src/lib/supabase.ts lines 226-230): an upsert on profiles
with conflict target id and ignoreDuplicates set, which the row store executes
as ON CONFLICT DO NOTHING — an existing row with the id is left completely
unchanged, and only when no row exists is a fresh row inserted with
is_approved set to false. -/
def upsertProfile (profiles : List Profile) (userId email : String) : List Profile :=
  if profiles.any (fun p => p.id == userId) then profiles
  else profiles ++ [{ id := userId, email := email, is_approved := false }]

/-- Core fields of an INSERT payload as read by the notification fan-out
subscriber (src/lib/notifications.ts lines 97-106). -/
structure InsertPayload where
  symbol : String
  type : String
  entry : Int
deriving DecidableEq, Repr

/-- JavaScript truthiness guard of the fan-out handler: signal.symbol and
signal.type and signal.entry, i.e. non-empty strings and a non-zero entry. -/
def truthyFields (p : InsertPayload) : Bool :=
  !(p.symbol == "") && !(p.type == "") && !(p.entry == 0)

/-- Observable state of the notification fan-out subscriber: whether a channel
was opened, the payloads for which sendNewSignalNotification ran, and the
payloads for which the caller-supplied onNewSignal callback ran. -/
structure NotifState where
  subscribed : Bool
  notificationsSent : List InsertPayload
  callbackInvocations : List InsertPayload
deriving DecidableEq, Repr

/-- subscribeToSignalsForNotifications (src/lib/notifications.ts lines
86-114): when isApproved is false it returns immediately with a no-op
unsubscribe and opens no channel; otherwise it opens the channel with empty
delivery logs. -/
def subscribeToSignalsForNotifications (isApproved : Bool) : NotifState :=
  { subscribed := isApproved, notificationsSent := [], callbackInvocations := [] }

/-- The INSERT handler of the fan-out channel: when subscribed and the payload
fields pass the truthiness guard, deliver the local notification and invoke
the callback; otherwise do nothing.  When no channel was opened no handler
runs at all. -/
def notifOnInsert (st : NotifState) (p : InsertPayload) : NotifState :=
  if st.subscribed = false then st
  else if truthyFields p then
    { st with notificationsSent := st.notificationsSent ++ [p],
              callbackInvocations := st.callbackInvocations ++ [p] }
  else st

/-- Fold of the fan-out INSERT handler over the delivered change feed. -/
def notifProcess (st : NotifState) (inserts : List InsertPayload) : NotifState :=
  inserts.foldl notifOnInsert st

/-- A concrete trading signal for exercising the stream theorems. -/
def sampleSignal : Signal :=
  { id := "sig-1", symbol := "EURUSD", type := TradeType.BUY, entry := 1, sl := 0, tp := 2,
    timestamp := "2025-01-01T00:00:00Z", status := SignalStatus.active, confidence := 80,
    aiInsight := none, technicalReason := some "Momentum breakout" }

/-- A text-generation oracle that always succeeds with a fixed insight. -/
def constInsight : Signal → String := fun _ => "Voltrix insight"

/-- A concrete subscription state that has already seen sampleSignal. -/
def sampleStreamState : StreamState :=
  { signals := [sampleSignal], seenIds := {"sig-1"}, newSignalCount := 1,
    enrichCalls := ["sig-1"] }

/-- A text-generation oracle that always fails (empty result). -/
def noInsight : Signal → String := fun _ => ""

/-- A concrete signal that already carries enrichment text. -/
def enrichedSignal : Signal :=
  { sampleSignal with id := "sig-2", aiInsight := some "Already enriched" }

/-- A concrete, already-approved profile row for exercising the store
theorems. -/
def sampleProfile : Profile :=
  { id := "user-1", email := "user1@example.com", is_approved := true }

/-- A concrete hook state for exercising the re-lock theorems: the app entered
background at t = 0, the user had already authenticated, no challenge is in
flight. -/
def sampleBioState : BioState :=
  { appState := AppStatus.background, wasInTrueBackground := true,
    backgroundTimestamp := some 1, hasAuthenticatedOnce := true,
    isAuthenticating := false, isAuthenticated := true, isSupported := true,
    error := none, scheduledChallenges := [] }

/-- A concrete hook state before any successful challenge: unauthenticated,
supported, idle. -/
def lockedBioState : BioState :=
  { appState := AppStatus.active, wasInTrueBackground := false,
    backgroundTimestamp := none, hasAuthenticatedOnce := false,
    isAuthenticating := false, isAuthenticated := false, isSupported := true,
    error := none, scheduledChallenges := [] }

/-- A concrete hook state in the foreground with no pending background flag. -/
def overlayBioState : BioState :=
  { appState := AppStatus.active, wasInTrueBackground := false,
    backgroundTimestamp := none, hasAuthenticatedOnce := true,
    isAuthenticating := false, isAuthenticated := true, isSupported := true,
    error := none, scheduledChallenges := [] }

end Voltrix

namespace Voltrix

/-! ## Theorems about the re-lock state machine -/

/-- C2: for every background-to-active return where the elapsed time in
background is strictly below MIN_BACKGROUND_MS, the re-lock is suppressed:
isAuthenticated is unchanged and no challenge is scheduled. -/
theorem relock_suppressed_under_threshold (st : BioState) (t now : Nat)
    (hprev : st.appState = AppStatus.background)
    (hbg : st.wasInTrueBackground = true)
    (hts : st.backgroundTimestamp = some t)
    (ht0 : t ≠ 0)
    (helapsed : now - t < MIN_BACKGROUND_MS) :
    (handleAppStateChange now st AppStatus.active).isAuthenticated = st.isAuthenticated ∧
    (handleAppStateChange now st AppStatus.active).scheduledChallenges
      = st.scheduledChallenges := by
  have hlt : ¬ MIN_BACKGROUND_MS ≤ now - t := Nat.not_le.mpr helapsed
  by_cases hsup : st.isSupported = false
  · simp [handleAppStateChange, hsup]
  · by_cases hauth : st.hasAuthenticatedOnce = true
    · by_cases hfl : st.isAuthenticating = false
      · simp [handleAppStateChange, hsup, hauth, hfl, hbg, hts, hprev, ht0, hlt]
      · simp [handleAppStateChange, hsup, hauth, hfl, hbg, hts, hprev]
    · simp [handleAppStateChange, hsup, hauth, hbg, hts, hprev]

/-- Witness for C2 at Scenario D: backgrounded at t = 0, active again at
t = 1000 ms; the state is unchanged in the observable components. -/
theorem relock_suppressed_under_threshold_witness :
    (handleAppStateChange 1001 sampleBioState AppStatus.active).isAuthenticated
      = sampleBioState.isAuthenticated ∧
    (handleAppStateChange 1001 sampleBioState AppStatus.active).scheduledChallenges
      = sampleBioState.scheduledChallenges :=
  relock_suppressed_under_threshold sampleBioState 1 1001 rfl rfl rfl (by decide) (by decide)

/-- C3: a transition into active with a pending true-background flag, a prior
successful authentication, no challenge in flight and elapsed background time
of at least MIN_BACKGROUND_MS locks the gate: isAuthenticated becomes false,
the error is cleared, and exactly one challenge is scheduled after the 500 ms
delay. -/
theorem relock_triggers_after_min_background (st : BioState) (t now : Nat)
    (hsup : st.isSupported = true)
    (hbg : st.wasInTrueBackground = true)
    (hauth : st.hasAuthenticatedOnce = true)
    (hfl : st.isAuthenticating = false)
    (hts : st.backgroundTimestamp = some t)
    (helapsed : MIN_BACKGROUND_MS ≤ now - t) :
    (handleAppStateChange now st AppStatus.active).isAuthenticated = false ∧
    (handleAppStateChange now st AppStatus.active).error = none ∧
    (handleAppStateChange now st AppStatus.active).scheduledChallenges
      = st.scheduledChallenges ++ [CHALLENGE_DELAY_MS] := by
  by_cases ht0 : t = 0
  · by_cases hpa : st.appState = AppStatus.inactive <;>
      simp [handleAppStateChange, hsup, hbg, hauth, hfl, hts, ht0, hpa]
  · by_cases hpa : st.appState = AppStatus.inactive <;>
      simp [handleAppStateChange, hsup, hbg, hauth, hfl, hts, ht0, helapsed, hpa]

/-- Witness for C3 at Scenario E: backgrounded at t = 0, active again at
t = 4000 ms; the gate locks and schedules one challenge. -/
theorem relock_triggers_after_min_background_witness :
    (handleAppStateChange 4000 sampleBioState AppStatus.active).isAuthenticated = false ∧
    (handleAppStateChange 4000 sampleBioState AppStatus.active).error = none ∧
    (handleAppStateChange 4000 sampleBioState AppStatus.active).scheduledChallenges
      = sampleBioState.scheduledChallenges ++ [CHALLENGE_DELAY_MS] :=
  relock_triggers_after_min_background sampleBioState 1 4000 rfl rfl rfl rfl rfl (by decide)

/-- Single lifecycle step that is not a background entry, from a state with no
pending background flag: the gate is untouched and the flag stays clear. -/
theorem handleAppStateChange_no_background (now : Nat) (st : BioState) (ns : AppStatus)
    (hns : ns ≠ AppStatus.background) (hbg : st.wasInTrueBackground = false) :
    (handleAppStateChange now st ns).isAuthenticated = st.isAuthenticated ∧
    (handleAppStateChange now st ns).scheduledChallenges = st.scheduledChallenges ∧
    (handleAppStateChange now st ns).wasInTrueBackground = false := by
  by_cases hsup : st.isSupported = false
  · simp [handleAppStateChange, hsup, hbg]
  · by_cases hlast : st.appState = AppStatus.inactive ∧ ns = AppStatus.active <;>
      simp [handleAppStateChange, hsup, hbg, hns, hlast]

/-- C4: a lifecycle sequence that never enters background, starting with no
pending background flag, never changes isAuthenticated and schedules no
challenge, and the flag stays clear; moreover any single inactive-to-active
step clears a pending flag unconditionally. -/
theorem overlay_dismissal_never_relocks (st : BioState) (evts : List (Nat × AppStatus))
    (hbg : st.wasInTrueBackground = false)
    (hnobg : ∀ e ∈ evts, e.2 ≠ AppStatus.background) :
    ((handleAppStateSeq st evts).isAuthenticated = st.isAuthenticated ∧
     (handleAppStateSeq st evts).scheduledChallenges = st.scheduledChallenges ∧
     (handleAppStateSeq st evts).wasInTrueBackground = false) ∧
    (∀ (now : Nat) (s : BioState), s.isSupported = true → s.appState = AppStatus.inactive →
      (handleAppStateChange now s AppStatus.active).wasInTrueBackground = false) := by
  constructor
  · induction evts generalizing st with
    | nil => simp [handleAppStateSeq, hbg]
    | cons e rest ih =>
        have hstep := handleAppStateChange_no_background e.1 st e.2
          (hnobg e (List.mem_cons_self e rest)) hbg
        have hrest := ih (handleAppStateChange e.1 st e.2) hstep.2.2
          (fun x hx => hnobg x (List.mem_cons_of_mem e hx))
        have hseq : handleAppStateSeq st (e :: rest)
            = handleAppStateSeq (handleAppStateChange e.1 st e.2) rest := by
          simp [handleAppStateSeq]
        rw [hseq]
        exact ⟨hrest.1.trans hstep.1, hrest.2.1.trans hstep.2.1, hrest.2.2⟩
  · intro now s hsup hpa
    simp [handleAppStateChange, hsup, hpa]

/-- Witness for C4: an inactive flicker followed by a return to active, never
entering background, leaves the gate as it was; the pending-flag clearing is
instantiated at a genuinely pending state. -/
theorem overlay_dismissal_never_relocks_witness :
    ((handleAppStateSeq overlayBioState [(0, AppStatus.inactive), (200, AppStatus.active)]).isAuthenticated
        = overlayBioState.isAuthenticated ∧
     (handleAppStateSeq overlayBioState [(0, AppStatus.inactive), (200, AppStatus.active)]).scheduledChallenges
        = overlayBioState.scheduledChallenges ∧
     (handleAppStateSeq overlayBioState [(0, AppStatus.inactive), (200, AppStatus.active)]).wasInTrueBackground
        = false) ∧
    (handleAppStateChange 100 { sampleBioState with appState := AppStatus.inactive }
        AppStatus.active).wasInTrueBackground = false :=
  ⟨(overlay_dismissal_never_relocks overlayBioState
      [(0, AppStatus.inactive), (200, AppStatus.active)] rfl (by decide)).1,
   (overlay_dismissal_never_relocks overlayBioState
      [(0, AppStatus.inactive), (200, AppStatus.active)] rfl (by decide)).2
     100 { sampleBioState with appState := AppStatus.inactive } rfl rfl⟩

/-- C5: authenticate maps each biometric outcome to the specified result:
success and fallback-to-passcode set hasAuthenticatedOnce and isAuthenticated;
user_cancel, lockout and any other failure or thrown exception set the
specified error message; in every non-success, non-fallback case
isAuthenticated remains false. -/
theorem authenticate_outcome_map (st : BioState)
    (hsup : st.isSupported = true) (hfl : st.isAuthenticating = false) :
    ((authenticate st AuthOutcome.success).hasAuthenticatedOnce = true ∧
     (authenticate st AuthOutcome.success).isAuthenticated = true) ∧
    ((authenticate st (AuthOutcome.failure AuthErrorCode.user_fallback)).hasAuthenticatedOnce
        = true ∧
     (authenticate st (AuthOutcome.failure AuthErrorCode.user_fallback)).isAuthenticated
        = true) ∧
    (authenticate st (AuthOutcome.failure AuthErrorCode.user_cancel)).error
      = some "Authentication cancelled" ∧
    (authenticate st (AuthOutcome.failure AuthErrorCode.lockout)).error
      = some "Too many attempts. Try again later." ∧
    (authenticate st (AuthOutcome.failure AuthErrorCode.other)).error
      = some "Authentication failed. Try again." ∧
    (authenticate st AuthOutcome.thrown).error
      = some "Authentication failed. Try again." ∧
    (∀ o : AuthOutcome, o ≠ AuthOutcome.success →
      o ≠ AuthOutcome.failure AuthErrorCode.user_fallback →
      st.isAuthenticated = false → (authenticate st o).isAuthenticated = false) := by
  refine ⟨?_, ?_, ?_, ?_, ?_, ?_, ?_⟩
  · simp [authenticate, hsup, hfl]
  · simp [authenticate, hsup, hfl]
  · simp [authenticate, hsup, hfl]
  · simp [authenticate, hsup, hfl]
  · simp [authenticate, hsup, hfl]
  · simp [authenticate, hsup, hfl]
  · intro o h1 h2 hA
    cases o with
    | success => exact absurd rfl h1
    | thrown => simp [authenticate, hsup, hfl, hA]
    | failure c =>
        cases c with
        | user_fallback => exact absurd rfl h2
        | user_cancel => simp [authenticate, hsup, hfl, hA]
        | lockout => simp [authenticate, hsup, hfl, hA]
        | other => simp [authenticate, hsup, hfl, hA]

/-- Witness for C5 at Scenario C: a lockout failure from the unauthenticated
state yields the lockout message and leaves the gate locked. -/
theorem authenticate_outcome_map_witness :
    (authenticate lockedBioState (AuthOutcome.failure AuthErrorCode.lockout)).error
      = some "Too many attempts. Try again later." ∧
    (authenticate lockedBioState (AuthOutcome.failure AuthErrorCode.lockout)).isAuthenticated
      = false :=
  ⟨(authenticate_outcome_map lockedBioState rfl rfl).2.2.2.1,
   (authenticate_outcome_map lockedBioState rfl rfl).2.2.2.2.2.2
     (AuthOutcome.failure AuthErrorCode.lockout) (by decide) (by decide) rfl⟩

/-! ## Theorems about the signal stream -/

/-- Attaching an insight by id does not change the identifiers of the view. -/
theorem map_update_id (l : List Signal) (i v : String) :
    (l.map (fun x => if x.id = i then { x with aiInsight := some v } else x)).map Signal.id
      = l.map Signal.id := by
  induction l with
  | nil => rfl
  | cons a l ih => by_cases h : a.id = i <;> simp [h, ih]

/-- The INSERT handler always leaves the seen-index equal to the previous
seen-index extended with the id of the delivered payload. -/
theorem processInsert_seenIds (gen : Signal → String) (st : StreamState) (s : Signal) :
    (processInsert gen st s).seenIds = insert s.id st.seenIds := by
  by_cases h : s.id ∈ st.seenIds
  · simp [processInsert, h, Finset.insert_eq_self.mpr h]
  · by_cases hg : gen s ≠ ""
    · simp [processInsert, h, hg]
    · simp [processInsert, h, hg]

/-- The INSERT handler preserves the dedup invariant: view identifiers are
distinct and all lie in the seen-index. -/
theorem processInsert_inv (gen : Signal → String) (st : StreamState) (s : Signal)
    (h1 : (st.signals.map Signal.id).Nodup)
    (h2 : ∀ i ∈ st.signals.map Signal.id, i ∈ st.seenIds) :
    ((processInsert gen st s).signals.map Signal.id).Nodup ∧
    ∀ i ∈ (processInsert gen st s).signals.map Signal.id,
      i ∈ (processInsert gen st s).seenIds := by
  by_cases h : s.id ∈ st.seenIds
  · have heq : processInsert gen st s = st := by simp [processInsert, h]
    rw [heq]
    exact ⟨h1, h2⟩
  · have hids : (processInsert gen st s).signals.map Signal.id
        = s.id :: st.signals.map Signal.id := by
      by_cases hg : gen s ≠ ""
      · simp only [processInsert, if_neg h, if_pos hg]
        simp [map_update_id]
        intro a _
        by_cases h' : a.id = s.id <;> simp [h']
      · simp [processInsert, h, hg]
    have hseen := processInsert_seenIds gen st s
    constructor
    · rw [hids]
      exact List.nodup_cons.mpr ⟨fun hc => h (h2 _ hc), h1⟩
    · intro i hi
      rw [hids] at hi
      rw [hseen]
      rcases List.mem_cons.mp hi with h' | h'
      · exact h' ▸ Finset.mem_insert_self _ _
      · exact Finset.mem_insert_of_mem (h2 i h')

/-- After a fold of INSERT deliveries the seen-index is the previous
seen-index united with the distinct delivered identifiers. -/
theorem processInserts_seenIds (gen : Signal → String) (deliveries : List Signal)
    (st : StreamState) :
    (processInserts gen st deliveries).seenIds
      = st.seenIds ∪ (deliveries.map Signal.id).toFinset := by
  induction deliveries generalizing st with
  | nil => simp [processInserts]
  | cons a l ih =>
      have hstep : processInserts gen st (a :: l)
          = processInserts gen (processInsert gen st a) l := by
        simp [processInserts]
      rw [hstep, ih, processInsert_seenIds]
      ext x
      simp only [List.map_cons, List.toFinset_cons, Finset.mem_union, Finset.mem_insert]
      tauto

/-- The fold of INSERT deliveries preserves the dedup invariant. -/
theorem processInserts_inv (gen : Signal → String) (deliveries : List Signal)
    (st : StreamState)
    (h1 : (st.signals.map Signal.id).Nodup)
    (h2 : ∀ i ∈ st.signals.map Signal.id, i ∈ st.seenIds) :
    ((processInserts gen st deliveries).signals.map Signal.id).Nodup ∧
    ∀ i ∈ (processInserts gen st deliveries).signals.map Signal.id,
      i ∈ (processInserts gen st deliveries).seenIds := by
  induction deliveries generalizing st with
  | nil => exact ⟨h1, h2⟩
  | cons a l ih =>
      have hstep : processInserts gen st (a :: l)
          = processInserts gen (processInsert gen st a) l := by
        simp [processInserts]
      have := processInsert_inv gen st a h1 h2
      rw [hstep]
      exact ih (processInsert gen st a) this.1 this.2

/-- C1: for every sequence of insert-change deliveries, possibly with repeated
identifiers, the local view holds each identifier at most once and the
seen-index size equals the number of distinct identifiers delivered; an insert
whose id already sits in the seen-index leaves the whole subscription state —
view, seen-index, counter and enrichment-call log — unchanged. -/
theorem signals_dedup_invariant (gen : Signal → String) (deliveries : List Signal) :
    ((processInserts gen initStreamState deliveries).signals.map Signal.id).Nodup ∧
    (processInserts gen initStreamState deliveries).seenIds.card
      = (deliveries.map Signal.id).toFinset.card ∧
    ∀ (st : StreamState) (s : Signal), s.id ∈ st.seenIds →
      processInsert gen st s = st := by
  refine ⟨?_, ?_, ?_⟩
  · exact (processInserts_inv gen deliveries initStreamState (by simp [initStreamState])
      (by simp [initStreamState])).1
  · rw [processInserts_seenIds]
    simp [initStreamState]
  · intro st s h
    simp [processInsert, h]

/-- Witness for C1: delivering the same signal twice from the empty state, and
a redelivery against a state that has already seen the id. -/
theorem signals_dedup_invariant_witness :
    ((processInserts constInsight initStreamState [sampleSignal, sampleSignal]).signals.map
        Signal.id).Nodup ∧
    (processInserts constInsight initStreamState [sampleSignal, sampleSignal]).seenIds.card
      = ([sampleSignal, sampleSignal].map Signal.id).toFinset.card ∧
    processInsert constInsight sampleStreamState sampleSignal = sampleStreamState :=
  ⟨(signals_dedup_invariant constInsight [sampleSignal, sampleSignal]).1,
   (signals_dedup_invariant constInsight [sampleSignal, sampleSignal]).2.1,
   (signals_dedup_invariant constInsight [sampleSignal, sampleSignal]).2.2
     sampleStreamState sampleSignal (by decide)⟩

/-! ## Theorems about the enrichment pass -/

/-- The generation loop issues exactly one call per needing signal, in order. -/
theorem enrichLoop_calls (gen : Signal → String) (needing acc : List Signal) :
    (enrichLoop gen needing acc).2 = needing.map Signal.id := by
  induction needing generalizing acc with
  | nil => rfl
  | cons s rest ih => simp [enrichLoop, ih]

/-- The enrichment pass issues its calls exactly for the signals lacking
insight, in view order. -/
theorem generateAIInsights_calls (gen : Signal → String) (signalList : List Signal) :
    (generateAIInsights gen signalList).2
      = (signalList.filter lacksInsight).map Signal.id := by
  unfold generateAIInsights
  by_cases h : (signalList.filter lacksInsight).isEmpty
  · rw [List.isEmpty_iff] at h
    simp [h]
  · simp [h, enrichLoop_calls]

/-- Updating the first entry with a different id leaves a lookup unchanged. -/
theorem findById_updateFirst_ne (l : List Signal) (i j v : String) (hij : i ≠ j) :
    findById (updateFirst l j v) i = findById l i := by
  induction l with
  | nil => rfl
  | cons a l ih =>
      by_cases h : a.id = j
      · have hni : ¬ a.id = i := fun hh => hij (hh ▸ h.symm ▸ rfl)
        simp [updateFirst, findById, h, hni, h ▸ hni]
      · by_cases h' : a.id = i <;> simp [updateFirst, findById, h, h', ih, hij]

/-- In a view with distinct ids, lookup of the id of a member finds it. -/
theorem findById_of_nodup (l : List Signal) (s : Signal)
    (hnd : (l.map Signal.id).Nodup) (hs : s ∈ l) : findById l s.id = some s := by
  induction l with
  | nil => cases hs
  | cons a l ih =>
      rcases List.mem_cons.mp hs with rfl | h'
      · simp [findById]
      · have hane : a.id ∉ l.map Signal.id := (List.nodup_cons.mp hnd).1
        have hne : ¬ a.id = s.id := fun hh =>
          hane (hh ▸ List.mem_map_of_mem Signal.id h')
        simp [findById, hne]
        exact ih (List.nodup_cons.mp hnd).2 h'

/-- The generation loop leaves every entry untouched whose id is only carried
by needing signals on which generation fails. -/
theorem enrichLoop_findById (gen : Signal → String) (needing acc : List Signal) (i : String)
    (h : ∀ x ∈ needing, x.id = i → gen x = "") :
    findById (enrichLoop gen needing acc).1 i = findById acc i := by
  induction needing generalizing acc with
  | nil => rfl
  | cons s rest ih =>
      by_cases hg : gen s ≠ ""
      · have hne : ¬ s.id = i := fun hh => hg (h s (List.mem_cons_self s rest) hh)
        simp only [enrichLoop, if_pos hg]
        rw [ih (updateFirst acc s.id (gen s)) (fun x hx => h x (List.mem_cons_of_mem s hx))]
        exact findById_updateFirst_ne acc i s.id (gen s) (fun hh => hne hh.symm)
      · simp only [enrichLoop, if_neg hg]
        exact ih acc (fun x hx => h x (List.mem_cons_of_mem s hx))

/-- The enrichment pass leaves an entry untouched whenever every needing
signal carrying its id fails to generate. -/
theorem generateAIInsights_findById (gen : Signal → String) (signalList : List Signal)
    (s : Signal) (hnodup : (signalList.map Signal.id).Nodup) (hs : s ∈ signalList)
    (h : ∀ x ∈ signalList.filter lacksInsight, x.id = s.id → gen x = "") :
    findById (generateAIInsights gen signalList).1 s.id = some s := by
  unfold generateAIInsights
  by_cases he : (signalList.filter lacksInsight).isEmpty
  · simp [he]
    exact findById_of_nodup signalList s hnodup hs
  · have hne : (signalList.filter lacksInsight).isEmpty = false := by
      revert he
      cases (signalList.filter lacksInsight).isEmpty <;> simp
    simp only [hne, Bool.false_eq_true, if_false]
    rw [enrichLoop_findById gen (signalList.filter lacksInsight) signalList s.id h]
    exact findById_of_nodup signalList s hnodup hs

/-- C6: over a view with distinct identifiers, the enrichment pass issues its
calls exactly for the signals lacking insight — hence at most one call per
event and none for an event that already has enrichment text — leaves every
already-enriched event unchanged, and on an empty generation result leaves the
event exactly as it was, its enrichment text still absent. -/
theorem enrichment_pass_exactly_once (gen : Signal → String) (signalList : List Signal)
    (hnodup : (signalList.map Signal.id).Nodup) :
    (generateAIInsights gen signalList).2
      = (signalList.filter lacksInsight).map Signal.id ∧
    (generateAIInsights gen signalList).2.Nodup ∧
    (∀ s ∈ signalList, lacksInsight s = false →
      s.id ∉ (generateAIInsights gen signalList).2 ∧
      findById (generateAIInsights gen signalList).1 s.id = some s) ∧
    (∀ s ∈ signalList, lacksInsight s = true → gen s = "" →
      findById (generateAIInsights gen signalList).1 s.id = some s) := by
  have hcalls := generateAIInsights_calls gen signalList
  have hinj := List.inj_on_of_nodup_map hnodup
  refine ⟨hcalls, ?_, ?_, ?_⟩
  · rw [hcalls]
    exact hnodup.sublist ((List.filter_sublist signalList).map Signal.id)
  · intro s hs hsl
    constructor
    · rw [hcalls]
      intro hmem
      rcases List.mem_map.mp hmem with ⟨x, hx, hxid⟩
      rcases List.mem_filter.mp hx with ⟨hxl, hxlacks⟩
      have : x = s := hinj hxl hs hxid
      rw [this] at hxlacks
      rw [hsl] at hxlacks
      cases hxlacks
    · refine generateAIInsights_findById gen signalList s hnodup hs ?_
      intro x hx hxid
      rcases List.mem_filter.mp hx with ⟨hxl, hxlacks⟩
      have : x = s := hinj hxl hs hxid
      rw [this, hsl] at hxlacks
      cases hxlacks
  · intro s hs hsl hgen
    refine generateAIInsights_findById gen signalList s hnodup hs ?_
    intro x hx hxid
    rcases List.mem_filter.mp hx with ⟨hxl, _⟩
    have : x = s := hinj hxl hs hxid
    rw [this, hgen]

/-- Witness for C6: a failing generator over a view holding one lacking and
one already-enriched signal — one call is issued for the lacking signal only,
the enriched one is untouched, and the failed one keeps its text absent. -/
theorem enrichment_pass_exactly_once_witness :
    (generateAIInsights noInsight [sampleSignal, enrichedSignal]).2
      = ([sampleSignal, enrichedSignal].filter lacksInsight).map Signal.id ∧
    (enrichedSignal.id ∉ (generateAIInsights noInsight [sampleSignal, enrichedSignal]).2 ∧
     findById (generateAIInsights noInsight [sampleSignal, enrichedSignal]).1
        enrichedSignal.id = some enrichedSignal) ∧
    findById (generateAIInsights noInsight [sampleSignal, enrichedSignal]).1
        sampleSignal.id = some sampleSignal :=
  ⟨(enrichment_pass_exactly_once noInsight [sampleSignal, enrichedSignal] (by decide)).1,
   (enrichment_pass_exactly_once noInsight [sampleSignal, enrichedSignal] (by decide)).2.2.1
     enrichedSignal (by decide) (by decide),
   (enrichment_pass_exactly_once noInsight [sampleSignal, enrichedSignal] (by decide)).2.2.2
     sampleSignal (by decide) (by decide) rfl⟩

/-! ## Theorems about the store helpers -/

/-- Replacing the entry price of a row does not change its follow key. -/
theorem sameKey_entry_price (u s : String) (p : Int) (r : UserSignalRow) :
    sameKey u s { r with entry_price := p } = sameKey u s r := rfl

/-- The upsert-update pass preserves the number of rows matching the key. -/
theorem countP_followMap (db : List UserSignalRow) (u s : String) (p : Int) :
    (db.map (fun r => if sameKey u s r then { r with entry_price := p } else r)).countP
      (sameKey u s) = db.countP (sameKey u s) := by
  induction db with
  | nil => rfl
  | cons a l ih =>
      by_cases h : sameKey u s a = true
      · simp [List.countP_cons, h, ih, sameKey_entry_price]
      · simp [List.countP_cons, h, ih]

/-- One followSignal call leaves exactly one row matching the key, provided
the store respected the unique constraint beforehand. -/
theorem followSignal_countP (db : List UserSignalRow) (u s : String) (p : Int)
    (hkey : db.countP (sameKey u s) ≤ 1) :
    (followSignal db u s p).countP (sameKey u s) = 1 := by
  by_cases hany : db.any (sameKey u s) = true
  · rw [followSignal, if_pos hany, countP_followMap]
    rcases List.any_eq_true.mp hany with ⟨r, hr, hkeyr⟩
    have hpos : 0 < db.countP (sameKey u s) :=
      List.countP_pos_iff.mpr ⟨r, hr, hkeyr⟩
    omega
  · rw [followSignal, if_neg hany]
    have hzero : db.countP (sameKey u s) = 0 := by
      refine List.countP_eq_zero.mpr ?_
      intro r hr hkeyr
      exact hany (List.any_eq_true.mpr ⟨r, hr, hkeyr⟩)
    rw [List.countP_append, hzero]
    simp [List.countP_cons, sameKey]

/-- After a followSignal call some row matches the key. -/
theorem followSignal_any (db : List UserSignalRow) (u s : String) (p : Int) :
    (followSignal db u s p).any (sameKey u s) = true := by
  by_cases hany : db.any (sameKey u s) = true
  · rw [followSignal, if_pos hany]
    rcases List.any_eq_true.mp hany with ⟨r, hr, hkeyr⟩
    refine List.any_eq_true.mpr
      ⟨if sameKey u s r then { r with entry_price := p } else r,
       List.mem_map_of_mem _ hr, ?_⟩
    rw [if_pos hkeyr, sameKey_entry_price]
    exact hkeyr
  · rw [followSignal, if_neg hany]
    refine List.any_eq_true.mpr ⟨{ user_id := u, signal_id := s, entry_price := p }, by simp, ?_⟩
    simp [sameKey]

/-- After a followSignal call every row matching the key carries the written
entry price. -/
theorem followSignal_entry (db : List UserSignalRow) (u s : String) (p : Int) :
    ∀ r ∈ followSignal db u s p, sameKey u s r = true → r.entry_price = p := by
  intro r hr hkeyr
  by_cases hany : db.any (sameKey u s) = true
  · rw [followSignal, if_pos hany] at hr
    rcases List.mem_map.mp hr with ⟨r0, hr0, heq⟩
    by_cases h0 : sameKey u s r0 = true
    · rw [← heq, if_pos h0]
    · rw [← heq, if_neg h0] at hkeyr
      exact absurd hkeyr h0
  · rw [followSignal, if_neg hany] at hr
    rcases List.mem_append.mp hr with h | h
    · exact absurd (List.any_eq_true.mpr ⟨r, h, hkeyr⟩) hany
    · have hrow : r = { user_id := u, signal_id := s, entry_price := p } := by simpa using h
      rw [hrow]

/-- The upsert-update pass is the identity on a store whose keyed rows already
carry the written entry price. -/
theorem map_follow_self (l : List UserSignalRow) (u s : String) (p : Int)
    (hep : ∀ r ∈ l, sameKey u s r = true → r.entry_price = p) :
    l.map (fun r => if sameKey u s r then { r with entry_price := p } else r) = l := by
  induction l with
  | nil => rfl
  | cons a t ih =>
      rw [List.map_cons, ih (fun r hr h => hep r (List.mem_cons_of_mem a hr) h)]
      by_cases h : sameKey u s a = true
      · have hap := hep a (List.mem_cons_self a t) h
        rw [if_pos h]
        cases a
        simp_all
      · rw [if_neg h]

/-- C7: followSignal is an idempotent upsert keyed on (user_id, signal_id):
calling it twice with identical arguments gives the same store as calling it
once, and — under the unique-key invariant of migration 002 — exactly one row
matches the (user, signal) key afterwards. -/
theorem follow_idempotent_upsert (db : List UserSignalRow) (u s : String) (p : Int)
    (hkey : db.countP (sameKey u s) ≤ 1) :
    followSignal (followSignal db u s p) u s p = followSignal db u s p ∧
    (followSignal (followSignal db u s p) u s p).countP (sameKey u s) = 1 := by
  have hidem : followSignal (followSignal db u s p) u s p = followSignal db u s p := by
    rw [followSignal, if_pos (followSignal_any db u s p)]
    exact map_follow_self (followSignal db u s p) u s p (followSignal_entry db u s p)
  exact ⟨hidem, by rw [hidem]; exact followSignal_countP db u s p hkey⟩

/-- Witness for C7: following the same signal twice from an empty store leaves
exactly one row. -/
theorem follow_idempotent_upsert_witness :
    followSignal (followSignal [] "user-1" "sig-1" 5) "user-1" "sig-1" 5
      = followSignal [] "user-1" "sig-1" 5 ∧
    (followSignal (followSignal [] "user-1" "sig-1" 5) "user-1" "sig-1" 5).countP
      (sameKey "user-1" "sig-1") = 1 :=
  follow_idempotent_upsert [] "user-1" "sig-1" 5 (by decide)

/-- C9: a non-admin session invoking setUserApproval is rejected with the
explicit unauthorized error before any write is attempted — the profiles store
is returned unchanged — and the unauthorized error is distinct from every
transport error, which an admin write failure surfaces as. -/
theorem setUserApproval_unauthorized (sessionEmail : Option String)
    (writeError : Option String) (profiles : List Profile) (userId : String)
    (approved : Bool) (h : sessionEmail ≠ some ADMIN_EMAIL) :
    (setUserApproval sessionEmail writeError profiles userId approved).1
      = Except.error ApprovalError.unauthorized ∧
    (setUserApproval sessionEmail writeError profiles userId approved).2 = profiles ∧
    (∀ msg, (ApprovalError.unauthorized : ApprovalError) ≠ ApprovalError.transport msg) ∧
    (∀ msg, (setUserApproval (some ADMIN_EMAIL) (some msg) profiles userId approved).1
      = Except.error (ApprovalError.transport msg)) := by
  refine ⟨?_, ?_, ?_, ?_⟩
  · simp [setUserApproval, h]
  · simp [setUserApproval, h]
  · intro msg hc
    cases hc
  · intro msg
    simp [setUserApproval]

/-- Witness for C9: a non-admin session attempting to approve a user is
rejected and the store keeps the previous approval flag. -/
theorem setUserApproval_unauthorized_witness :
    (setUserApproval (some "eve@example.com") none [sampleProfile] "user-1" false).1
      = Except.error ApprovalError.unauthorized ∧
    (setUserApproval (some "eve@example.com") none [sampleProfile] "user-1" false).2
      = [sampleProfile] :=
  ⟨(setUserApproval_unauthorized (some "eve@example.com") none [sampleProfile] "user-1"
      false (by decide)).1,
   (setUserApproval_unauthorized (some "eve@example.com") none [sampleProfile] "user-1"
      false (by decide)).2.1⟩

/-- C10: upsertProfile leaves an existing profile row completely unchanged —
in particular an approved flag is never reset — and creates a row with
is_approved false only when no row for the user exists. -/
theorem upsertProfile_frame (profiles : List Profile) (userId email : String) :
    (profiles.any (fun p => p.id == userId) = true →
      upsertProfile profiles userId email = profiles) ∧
    (profiles.any (fun p => p.id == userId) = false →
      upsertProfile profiles userId email
        = profiles ++ [{ id := userId, email := email, is_approved := false }]) := by
  constructor
  · intro h
    simp [upsertProfile, h]
  · intro h
    simp [upsertProfile, h]

/-- Witness for C10: the ensure-profile step against a store already holding
an approved row for the user returns the store unchanged, and against an
empty store creates the row unapproved. -/
theorem upsertProfile_frame_witness :
    upsertProfile [sampleProfile] "user-1" "other@example.com" = [sampleProfile] ∧
    upsertProfile [] "user-1" "user1@example.com"
      = [] ++ [{ id := "user-1", email := "user1@example.com", is_approved := false }] :=
  ⟨(upsertProfile_frame [sampleProfile] "user-1" "other@example.com").1 (by decide),
   (upsertProfile_frame [] "user-1" "user1@example.com").2 (by decide)⟩

/-! ## Theorems about the notification fan-out -/

/-- While subscribed, the fan-out appends exactly the inserts passing the
field-presence guard to both delivery logs. -/
theorem notifProcess_subscribed (inserts : List InsertPayload) (st : NotifState)
    (h : st.subscribed = true) :
    (notifProcess st inserts).notificationsSent
      = st.notificationsSent ++ inserts.filter truthyFields ∧
    (notifProcess st inserts).callbackInvocations
      = st.callbackInvocations ++ inserts.filter truthyFields := by
  induction inserts generalizing st with
  | nil => simp [notifProcess]
  | cons a l ih =>
      have hstep : notifProcess st (a :: l) = notifProcess (notifOnInsert st a) l := rfl
      by_cases ht : truthyFields a = true
      · have hsub : (notifOnInsert st a).subscribed = true := by simp [notifOnInsert, h, ht]
        have hr := ih (notifOnInsert st a) hsub
        constructor
        · rw [hstep, hr.1]
          simp [notifOnInsert, h, ht, List.filter_cons]
        · rw [hstep, hr.2]
          simp [notifOnInsert, h, ht, List.filter_cons]
      · have hins : notifOnInsert st a = st := by simp [notifOnInsert, h, ht]
        have hr := ih st h
        constructor
        · rw [hstep, hins, hr.1]
          simp [List.filter_cons, ht]
        · rw [hstep, hins, hr.2]
          simp [List.filter_cons, ht]

/-- With no channel opened, the fan-out never changes state. -/
theorem notifProcess_unsubscribed (inserts : List InsertPayload) (st : NotifState)
    (h : st.subscribed = false) :
    notifProcess st inserts = st := by
  induction inserts generalizing st with
  | nil => rfl
  | cons a l ih =>
      have hstep : notifProcess st (a :: l) = notifProcess (notifOnInsert st a) l := rfl
      have hins : notifOnInsert st a = st := by simp [notifOnInsert, h]
      rw [hstep, hins, ih st h]

/-- C8 counterexample: with an approved user, an INSERT whose entry price is
zero — a value the signals schema admits — fires neither the local
notification nor the caller-supplied callback, refuting delivery for every
insert on the change feed. -/
theorem notif_fanout_counterexample :
    (notifProcess (subscribeToSignalsForNotifications true)
        [{ symbol := "EURUSD", type := "BUY", entry := 0 }]).notificationsSent = [] ∧
    (notifProcess (subscribeToSignalsForNotifications true)
        [{ symbol := "EURUSD", type := "BUY", entry := 0 }]).callbackInvocations = [] := by
  decide

/-- C8 (amended): when the user is approved, the fan-out delivers a local
notification and invokes the callback exactly for the inserts whose symbol and
type are non-empty and whose entry is non-zero — with no deduplication against
the primary stream — and when the user is not approved, no channel is opened
and neither a notification nor a callback ever fires. -/
theorem notif_fanout_behaviour (inserts : List InsertPayload) :
    (notifProcess (subscribeToSignalsForNotifications true) inserts).notificationsSent
      = inserts.filter truthyFields ∧
    (notifProcess (subscribeToSignalsForNotifications true) inserts).callbackInvocations
      = inserts.filter truthyFields ∧
    (subscribeToSignalsForNotifications false).subscribed = false ∧
    notifProcess (subscribeToSignalsForNotifications false) inserts
      = subscribeToSignalsForNotifications false := by
  refine ⟨?_, ?_, rfl, ?_⟩
  · simpa using (notifProcess_subscribed inserts (subscribeToSignalsForNotifications true) rfl).1
  · simpa using (notifProcess_subscribed inserts (subscribeToSignalsForNotifications true) rfl).2
  · exact notifProcess_unsubscribed inserts (subscribeToSignalsForNotifications false) rfl

end Voltrix
